import Mathlib

/-
Verification of the NSE-Profitinator option-chain builder (`nse_api.py`,
`get_options_data`) and the two strategy evaluators in `streamlit_app.py`
(short straddle, lines 228-290; covered call, lines 383-434).

Modelling conventions:
* Python floats are idealized as exact rationals (`ℚ`); decimal literals such
  as `0.01`, `0.999`, `1.003` become the exact rationals `1/100`, `999/1000`,
  `1003/1000`.
* Python `round(x, 2)` is modelled by `round2` (round half to even, Python's
  rounding mode, applied to the exact rational value).
* Python `int(x)` is modelled by `intTrunc` (truncation toward zero).
* Python exceptions that can escape the modelled code (`ZeroDivisionError`
  from a division whose denominator is zero, `ValueError` from `float()` on a
  non-numeric string) are modelled with `Except String`.
-/

deriving instance DecidableEq for Except

attribute [local semireducible] Rat.mul Rat.inv Rat.add Rat.sub Rat.ofScientific

namespace Profitinator

/-- Truncation toward zero, modelling Python `int()` applied to a number. -/
def intTrunc (q : ℚ) : ℤ := if q < 0 then ⌈q⌉ else ⌊q⌋

/-- Round to the nearest integer, ties to even, modelling Python `round(x)`
on the exact rational value `x`. -/
def roundHE (q : ℚ) : ℤ :=
  if q - (⌊q⌋ : ℚ) < 1/2 then ⌊q⌋
  else if (1 : ℚ)/2 < q - (⌊q⌋ : ℚ) then ⌊q⌋ + 1
  else if ⌊q⌋ % 2 = 0 then ⌊q⌋ else ⌊q⌋ + 1

/-- Python `round(x, 2)`: round to two decimal places. -/
def round2 (q : ℚ) : ℚ := (roundHE (100 * q) : ℚ) / 100

theorem roundHE_floor_le (q : ℚ) : ⌊q⌋ ≤ roundHE q := by
  unfold roundHE; split_ifs <;> omega

theorem roundHE_le_floor_add_one (q : ℚ) : roundHE q ≤ ⌊q⌋ + 1 := by
  unfold roundHE; split_ifs <;> omega

theorem roundHE_intCast (n : ℤ) : roundHE (n : ℚ) = n := by
  unfold roundHE
  rw [Int.floor_intCast]
  norm_num

theorem roundHE_mono {x y : ℚ} (h : x ≤ y) : roundHE x ≤ roundHE y := by
  have hf : ⌊x⌋ ≤ ⌊y⌋ := Int.floor_le_floor h
  rcases lt_or_eq_of_le hf with hlt | heq
  · have h1 := roundHE_le_floor_add_one x
    have h2 := roundHE_floor_le y
    omega
  · have hd : x - (⌊x⌋ : ℚ) ≤ y - (⌊y⌋ : ℚ) := by
      rw [← heq]; linarith
    unfold roundHE
    rw [← heq]
    split_ifs <;> first | omega | linarith

theorem round2_mono {x y : ℚ} (h : x ≤ y) : round2 x ≤ round2 y := by
  unfold round2
  have h1 : roundHE (100 * x) ≤ roundHE (100 * y) := roundHE_mono (by linarith)
  have h2 : ((roundHE (100 * x) : ℤ) : ℚ) ≤ ((roundHE (100 * y) : ℤ) : ℚ) := by
    exact_mod_cast h1
  linarith

theorem roundHE_sub_add_symm (A : ℤ) (B : ℚ) :
    roundHE ((A : ℚ) - B) + roundHE ((A : ℚ) + B) = 2 * A := by
  set b : ℤ := ⌊B⌋ with hb
  have hble : (b : ℚ) ≤ B := Int.floor_le B
  have hblt : B < (b : ℚ) + 1 := Int.lt_floor_add_one B
  rcases eq_or_lt_of_le hble with hint | hfrac
  · -- B is an integer: both arguments are integers
    have h1 : (A : ℚ) - B = ((A - b : ℤ) : ℚ) := by push_cast; rw [← hint]
    have h2 : (A : ℚ) + B = ((A + b : ℤ) : ℚ) := by push_cast; rw [← hint]
    rw [h1, h2, roundHE_intCast, roundHE_intCast]; ring
  · -- B has a nonzero fractional part d, so frac (A - B) = 1 - d
    have hfl1 : ⌊(A : ℚ) + B⌋ = A + b := by
      rw [Int.floor_eq_iff]
      constructor <;> push_cast <;> linarith
    have hfl2 : ⌊(A : ℚ) - B⌋ = A - b - 1 := by
      rw [Int.floor_eq_iff]
      constructor <;> push_cast <;> linarith
    unfold roundHE
    rw [hfl1, hfl2]
    push_cast
    split_ifs <;> first | omega | linarith

theorem round2_sub_add_symm {s : ℚ} (c : ℚ) (n : ℤ) (hs : (n : ℚ) = 100 * s) :
    round2 (s - c) + round2 (s + c) = 2 * s := by
  unfold round2
  have h1 : 100 * (s - c) = (n : ℚ) - 100 * c := by rw [hs]; ring
  have h2 : 100 * (s + c) = (n : ℚ) + 100 * c := by rw [hs]; ring
  rw [h1, h2]
  have hsum := roundHE_sub_add_symm n (100 * c)
  have hq : ((roundHE ((n : ℚ) - 100 * c) : ℤ) : ℚ) +
      ((roundHE ((n : ℚ) + 100 * c) : ℤ) : ℚ) = ((2 * n : ℤ) : ℚ) := by
    exact_mod_cast congrArg (fun z : ℤ => (z : ℚ)) hsum
  push_cast at hq
  linarith

/-! ## Option Chain Builder (`nse_api.py`, `get_options_data`) -/

/-- One raw derivative record as delivered by the market-data feed.
`optionType` and `strikePrice` model `item.get('optionType')` (no default,
so a missing field is `none`) and `item.get('strikePrice', '0')` (default
`"0"` when missing); the remaining numeric fields model `item.get(..., 0)`
with the default already folded in. -/
structure RawItem where
  instrumentType : String
  optionType : Option String
  expiryDate : String
  strikePrice : Option String
  lastPrice : ℚ
  totalTradedVolume : ℚ
  openInterest : ℚ
  underlyingValue : ℚ
deriving DecidableEq

/-- Normalized option entry, the dictionaries appended by
`get_options_data`. -/
structure OptionEntry where
  symbol : String
  expiry_date : String
  expiry_month : String
  option_type : Option String
  strike : ℚ
  last_price : ℚ
  volume : ℚ
  open_interest : ℚ
  underlying_value : ℚ
deriving DecidableEq

/-- Split a character list at every occurrence of the separator, modelling
Python `str.split(sep)` for a one-character separator (also the behavior of
`String.splitOn`). -/
def splitOnChar (c : Char) : List Char → List (List Char)
  | [] => [[]]
  | x :: xs =>
    if x = c then [] :: splitOnChar c xs
    else
      match splitOnChar c xs with
      | [] => [[x]]
      | g :: gs => (x :: g) :: gs

/-- Python `str.strip()`: remove leading and trailing whitespace. -/
def stripString (s : String) : String :=
  String.mk (((s.toList.dropWhile Char.isWhitespace).reverse.dropWhile
    Char.isWhitespace).reverse)

/-- Numeric value of a digit list (assumed to consist of decimal digits). -/
def digitsToNat (l : List Char) : ℕ := l.foldl (fun a c => 10 * a + (c.toNat - 48)) 0

/-- Modelled Python `float()` restricted to plain decimal numerals: optional
sign, then digits with an optional single decimal point ("120", "-5",
"120.00", "5.", ".5").  Returns `none` when the string cannot be parsed,
modelling the `ValueError` that `float()` raises. -/
def parseFloat? (s : String) : Option ℚ :=
  let cs := s.toList
  let sgn : ℚ := if cs.head? = some '-' then -1 else 1
  let t := if cs.head? = some '-' ∨ cs.head? = some '+' then cs.drop 1 else cs
  match splitOnChar '.' t with
  | [a] =>
    if a ≠ [] ∧ a.all Char.isDigit then some (sgn * (digitsToNat a : ℚ))
    else none
  | [a, b] =>
    if (a.all Char.isDigit ∧ b.all Char.isDigit) ∧ (a ≠ [] ∨ b ≠ []) then
      some (sgn * ((digitsToNat a : ℚ) + (digitsToNat b : ℚ) / (10 : ℚ) ^ b.length))
    else none
  | _ => none

/-- `expiry_date.split('-')[1] if '-' in expiry_date else ''`:
the expiry-month token between the first and second dash. -/
def monthOf (expiryDate : String) : String :=
  if expiryDate.toList.contains '-' then
    String.mk ((splitOnChar '-' expiryDate.toList).getD 1 [])
  else ""

/-- The pure per-item filter of the `get_options_data` loop: the record must
be a stock option (`instrumentType == 'OPTSTK'`) and, when a month filter is
given, the extracted month must match it (`if expiry_month and month !=
expiry_month: continue`). -/
def optstkQualifies (expiryMonth : Option String) (it : RawItem) : Bool :=
  it.instrumentType == "OPTSTK" &&
    (match expiryMonth with
     | some m => monthOf it.expiryDate == m
     | none => true)

/-- `strike_str = item.get('strikePrice', '0').strip();
strike = float(strike_str) if strike_str else 0` — trimming, empty-string
default, and the `ValueError` escaping from `float` on a non-numeric
string. -/
def parseStrike (it : RawItem) : Except String ℚ :=
  if stripString (it.strikePrice.getD "0") = "" then .ok 0
  else
    match parseFloat? (stripString (it.strikePrice.getD "0")) with
    | some q => .ok q
    | none => .error "ValueError"

/-- Build one normalized entry from a qualifying raw item (the dictionary
appended at `nse_api.py` lines 116-126). -/
def mkEntry (symbol : String) (it : RawItem) : Except String OptionEntry :=
  match parseStrike it with
  | .error e => .error e
  | .ok k =>
    .ok { symbol := symbol
          expiry_date := it.expiryDate
          expiry_month := monthOf it.expiryDate
          option_type := it.optionType
          strike := k
          last_price := it.lastPrice
          volume := it.totalTradedVolume
          open_interest := it.openInterest
          underlying_value := it.underlyingValue }

/-- Effectful map over a list that stops at the first error, the way a
Python `for` loop aborts on the first uncaught exception. -/
def exMapM {α β : Type} (f : α → Except String β) : List α → Except String (List β)
  | [] => .ok []
  | x :: l =>
    match f x with
    | .error e => .error e
    | .ok y =>
      match exMapM f l with
      | .error e => .error e
      | .ok ys => .ok (y :: ys)

/-- `get_options_data(symbol, expiry_month)` over a feed snapshot `data`:
filter to qualifying stock-option records, then build entries in order,
aborting on the first malformed strike. -/
def get_options_data (symbol : String) (expiryMonth : Option String)
    (data : List RawItem) : Except String (List OptionEntry) :=
  exMapM (mkEntry symbol) (data.filter (optstkQualifies expiryMonth))

/-! ## Strategy 1: Short Straddle (`streamlit_app.py` lines 228-290) -/

/-- One row of the short-straddle opportunity table. -/
structure SSRec where
  symbol : String
  current : ℚ
  strike : ℚ
  expiry : String
  callP : ℚ
  putP : ℚ
  combined : ℚ
  investment : ℤ
  maxProfit : ℤ
  maxRoi : ℚ
  shortSafety : ℚ
  longSafety : ℚ
  callVol : ℚ
  putVol : ℚ
deriving DecidableEq

/-- `'-'.join(expiry_full.split('-')[:2]) if expiry_full else ''`. -/
def formatExpiry (expiryFull : String) : String :=
  if expiryFull = "" then ""
  else String.mk (List.intercalate ['-'] ((splitOnChar '-' expiryFull.toList).take 2))

/-- The ATM band test of the straddle grouping step:
`(atm_lower * current_price) <= strike <= (atm_upper * current_price)`. -/
def inStraddleBand (atmLower atmUpper price strike : ℚ) : Bool :=
  decide (atmLower * price ≤ strike) && decide (strike ≤ atmUpper * price)

/-- Dictionary-key insertion order: append a key unless already present. -/
def insertKey (ks : List ℚ) (k : ℚ) : List ℚ := if k ∈ ks then ks else ks ++ [k]

/-- The keys of the `strikes` defaultdict in first-insertion order: one key
per distinct strike among the in-band options. -/
def strikeKeys (inband : List OptionEntry) : List ℚ :=
  inband.foldl (fun ks o => insertKey ks o.strike) []

/-- `strikes[strike][opt_type] = opt` with in-order overwrite: the slot holds
the last in-band option of the given type at the given strike. -/
def lastOptOfType (ty : String) (k : ℚ) (inband : List OptionEntry) :
    Option OptionEntry :=
  (inband.filter (fun o =>
    decide (o.option_type = some ty) && decide (o.strike = k))).getLast?

/-- The qualifying (strike, CALL, PUT) triples of the straddle scan, in
strike-key order: both legs present and both premiums nonzero. -/
def ssPairs (atmLower atmUpper price : ℚ) (options : List OptionEntry) :
    List (ℚ × OptionEntry × OptionEntry) :=
  let inband := options.filter
    (fun o => inStraddleBand atmLower atmUpper price o.strike)
  (strikeKeys inband).filterMap (fun k =>
    match lastOptOfType "CE" k inband, lastOptOfType "PE" k inband with
    | some ce, some pe =>
      if ce.last_price = 0 ∨ pe.last_price = 0 then none
      else some (k, ce, pe)
    | _, _ => none)

/-- The metrics block of the straddle loop (lines 265-290).  The division
`max_profit / investment` raises `ZeroDivisionError` when
`investment = margin * 2 * lot_size * current_price` is zero. -/
def ssRecord (symbol : String) (price lotSize margin : ℚ)
    (kcp : ℚ × OptionEntry × OptionEntry) : Except String SSRec :=
  if margin * 2 * lotSize * price = 0 then .error "ZeroDivisionError"
  else
    .ok { symbol := symbol
          current := price
          strike := kcp.1
          expiry := formatExpiry kcp.2.1.expiry_date
          callP := kcp.2.1.last_price
          putP := kcp.2.2.last_price
          combined := round2 (kcp.2.1.last_price + kcp.2.2.last_price)
          investment := intTrunc (margin * 2 * lotSize * price)
          maxProfit := intTrunc ((kcp.2.1.last_price + kcp.2.2.last_price) * lotSize)
          maxRoi := round2 ((kcp.2.1.last_price + kcp.2.2.last_price) * lotSize /
            (margin * 2 * lotSize * price) * 100)
          shortSafety := round2 (kcp.1 - (kcp.2.1.last_price + kcp.2.2.last_price))
          longSafety := round2 (kcp.1 + (kcp.2.1.last_price + kcp.2.2.last_price))
          callVol := kcp.2.1.volume
          putVol := kcp.2.2.volume }

/-- The full per-symbol short-straddle evaluation for one month's options:
`if current_price == 0: continue` (no records, no error), otherwise group by
strike in band and emit one row per qualifying strike. -/
def evalShortStraddle (symbol : String) (price lotSize : ℚ)
    (options : List OptionEntry) (atmLower atmUpper margin : ℚ) :
    Except String (List SSRec) :=
  if price = 0 then .ok []
  else exMapM (ssRecord symbol price lotSize margin)
    (ssPairs atmLower atmUpper price options)

/-! ## Strategy 2: Covered Call (`streamlit_app.py` lines 383-434) -/

/-- One row of the covered-call opportunity table. -/
structure CCRec where
  symbol : String
  current : ℚ
  strike : ℚ
  expiry : String
  callP : ℚ
  investment : ℤ
  maxProfit : ℤ
  maxRoi : ℚ
  safetyPoint : ℚ
  safetyPct : ℚ
  callVol : ℚ
deriving DecidableEq

/-- The pure per-entry filter of the covered-call loop: a CALL
(`opt['option_type'] != 'CE': continue`), strike in the asymmetric band
`0.999 * current_price <= strike <= atm_upper * current_price`, and
nonzero premium (`if call_premium == 0: continue`). -/
def ccQualifies (atmUpper price : ℚ) (o : OptionEntry) : Bool :=
  decide (o.option_type = some "CE") &&
  decide ((999/1000 : ℚ) * price ≤ o.strike) &&
  decide (o.strike ≤ atmUpper * price) &&
  !(decide (o.last_price = 0))

/-- The covered-call metrics block (lines 409-434):
`investment = int(margin * lot_size * current_price)`,
`interest = round(0.01 * margin * lot_size * current_price, 2)`, and the
ROI division by the integer-cast investment, which raises
`ZeroDivisionError` when that cast is zero. -/
def ccRecord (symbol : String) (price lotSize margin : ℚ)
    (o : OptionEntry) : Except String CCRec :=
  if intTrunc (margin * lotSize * price) = 0 then .error "ZeroDivisionError"
  else
    .ok { symbol := symbol
          current := price
          strike := o.strike
          expiry := formatExpiry o.expiry_date
          callP := o.last_price
          investment := intTrunc (margin * lotSize * price)
          maxProfit := intTrunc ((o.strike - price + o.last_price) * lotSize -
            round2 ((1/100) * (margin * lotSize * price)))
          maxRoi := round2 (100 * ((o.strike - price + o.last_price) * lotSize -
            round2 ((1/100) * (margin * lotSize * price))) /
            ((intTrunc (margin * lotSize * price) : ℤ) : ℚ))
          safetyPoint := round2 ((1003/1000) * price - o.last_price)
          safetyPct := round2 ((o.last_price - (3/1000) * price) / price * 100)
          callVol := o.volume }

/-- The full per-symbol covered-call evaluation for one month's options:
`if current_price == 0: continue`, otherwise one row per qualifying CALL
entry, in feed order, with no grouping by strike. -/
def evalCoveredCall (symbol : String) (price lotSize : ℚ)
    (options : List OptionEntry) (atmUpper margin : ℚ) :
    Except String (List CCRec) :=
  if price = 0 then .ok []
  else exMapM (ccRecord symbol price lotSize margin)
    (options.filter (ccQualifies atmUpper price))

/-! ## Helper lemmas about the embedding -/

theorem exMapM_ok_mem {α β : Type} {f : α → Except String β} :
    ∀ {l : List α} {ys : List β}, exMapM f l = .ok ys →
      ∀ {y : β}, y ∈ ys → ∃ x ∈ l, f x = .ok y := by
  intro l
  induction l with
  | nil =>
    intro ys h y hy
    simp only [exMapM] at h
    cases h
    simp at hy
  | cons x l ih =>
    intro ys h y hy
    simp only [exMapM] at h
    cases hfx : f x with
    | error e => rw [hfx] at h; cases h
    | ok z =>
      rw [hfx] at h
      cases hrec : exMapM f l with
      | error e => rw [hrec] at h; cases h
      | ok zs =>
        rw [hrec] at h
        cases h
        rcases List.mem_cons.mp hy with rfl | hmem
        · exact ⟨x, by simp, hfx⟩
        · obtain ⟨x', hx', hfx'⟩ := ih hrec hmem
          exact ⟨x', by simp [hx'], hfx'⟩

theorem exMapM_ok_length {α β : Type} {f : α → Except String β} :
    ∀ {l : List α} {ys : List β}, exMapM f l = .ok ys → ys.length = l.length := by
  intro l
  induction l with
  | nil =>
    intro ys h
    simp only [exMapM] at h
    cases h
    rfl
  | cons x l ih =>
    intro ys h
    simp only [exMapM] at h
    cases hfx : f x with
    | error e => rw [hfx] at h; cases h
    | ok z =>
      rw [hfx] at h
      cases hrec : exMapM f l with
      | error e => rw [hrec] at h; cases h
      | ok zs =>
        rw [hrec] at h
        cases h
        simp [ih hrec]

theorem exMapM_error_of_mem {α β : Type} {f : α → Except String β} :
    ∀ {l : List α} {x : α} {e : String}, x ∈ l → f x = .error e →
      ∃ msg, exMapM f l = .error msg := by
  intro l
  induction l with
  | nil => intro x e h; simp at h
  | cons y l ih =>
    intro x e hmem hfx
    rcases List.mem_cons.mp hmem with rfl | hmem'
    · exact ⟨e, by simp [exMapM, hfx]⟩
    · cases hfy : f y with
      | error e' => exact ⟨e', by simp [exMapM, hfy]⟩
      | ok z =>
        obtain ⟨msg, hmsg⟩ := ih hmem' hfx
        exact ⟨msg, by simp [exMapM, hfy, hmsg]⟩

theorem exMapM_ok_of_forall {α β : Type} {f : α → Except String β} {P : β → Prop} :
    ∀ {l : List α}, (∀ x ∈ l, ∃ y, f x = .ok y ∧ P y) →
      ∃ ys, exMapM f l = .ok ys ∧ ∀ y ∈ ys, P y := by
  intro l
  induction l with
  | nil => intro h; exact ⟨[], rfl, by simp⟩
  | cons x l ih =>
    intro h
    obtain ⟨y, hy, hPy⟩ := h x (by simp)
    obtain ⟨ys, hys, hP⟩ := ih (fun z hz => h z (by simp [hz]))
    refine ⟨y :: ys, by simp [exMapM, hy, hys], ?_⟩
    intro z hz
    rcases List.mem_cons.mp hz with rfl | hmem
    · exact hPy
    · exact hP z hmem

theorem getLast?_mem_of_eq {α : Type} :
    ∀ {l : List α} {a : α}, l.getLast? = some a → a ∈ l := by
  intro l
  induction l with
  | nil => intro a h; simp at h
  | cons x xs ih =>
    intro a h
    cases xs with
    | nil => simp at h; simp [h]
    | cons y ys =>
      rw [List.getLast?_cons_cons] at h
      exact List.mem_cons_of_mem x (ih h)

theorem mem_strikeKeys_aux :
    ∀ (l : List OptionEntry) (acc : List ℚ) (k : ℚ),
      k ∈ l.foldl (fun ks o => insertKey ks o.strike) acc →
      k ∈ acc ∨ ∃ o ∈ l, o.strike = k := by
  intro l
  induction l with
  | nil => intro acc k h; exact .inl h
  | cons o l ih =>
    intro acc k h
    rcases ih (insertKey acc o.strike) k h with h' | ⟨o', ho', hs⟩
    · unfold insertKey at h'
      split_ifs at h' with hmem
      · exact .inl h'
      · rcases List.mem_append.mp h' with h1 | h2
        · exact .inl h1
        · simp at h2
          exact .inr ⟨o, by simp, h2.symm⟩
    · exact .inr ⟨o', by simp [ho'], hs⟩

theorem mem_strikeKeys {l : List OptionEntry} {k : ℚ} (h : k ∈ strikeKeys l) :
    ∃ o ∈ l, o.strike = k := by
  rcases mem_strikeKeys_aux l [] k h with h' | h'
  · simp at h'
  · exact h'

theorem lastOptOfType_spec {ty : String} {k : ℚ} {l : List OptionEntry}
    {o : OptionEntry} (h : lastOptOfType ty k l = some o) :
    o ∈ l ∧ o.option_type = some ty ∧ o.strike = k := by
  unfold lastOptOfType at h
  have hm := getLast?_mem_of_eq h
  rw [List.mem_filter] at hm
  have hp := hm.2
  simp only [Bool.and_eq_true, decide_eq_true_eq] at hp
  exact ⟨hm.1, hp.1, hp.2⟩

theorem ssPairs_mem_spec {lo hi price : ℚ} {opts : List OptionEntry}
    {k : ℚ} {ce pe : OptionEntry} (h : (k, ce, pe) ∈ ssPairs lo hi price opts) :
    ce.last_price ≠ 0 ∧ pe.last_price ≠ 0 ∧
    lo * price ≤ k ∧ k ≤ hi * price ∧
    ce ∈ opts ∧ pe ∈ opts ∧
    ce.option_type = some "CE" ∧ pe.option_type = some "PE" ∧
    ce.strike = k ∧ pe.strike = k := by
  unfold ssPairs at h
  rw [List.mem_filterMap] at h
  obtain ⟨k', hk', hfk⟩ := h
  cases hce : lastOptOfType "CE" k'
      (opts.filter (fun o => inStraddleBand lo hi price o.strike)) with
  | none => rw [hce] at hfk; simp at hfk
  | some ce' =>
    cases hpe : lastOptOfType "PE" k'
        (opts.filter (fun o => inStraddleBand lo hi price o.strike)) with
    | none => rw [hce, hpe] at hfk; simp at hfk
    | some pe' =>
      rw [hce, hpe] at hfk
      simp only at hfk
      split_ifs at hfk with hz
      simp only [Option.some_inj, Prod.mk.injEq] at hfk
      obtain ⟨hkk, hcc, hpp⟩ := hfk
      push_neg at hz
      obtain ⟨hce1, hce2, hce3⟩ := lastOptOfType_spec hce
      obtain ⟨hpe1, hpe2, hpe3⟩ := lastOptOfType_spec hpe
      rw [List.mem_filter] at hce1 hpe1
      have hband := hce1.2
      unfold inStraddleBand at hband
      simp only [Bool.and_eq_true, decide_eq_true_eq] at hband
      subst hkk
      subst hcc
      subst hpp
      rw [hce3] at hband
      exact ⟨hz.1, hz.2, hband.1, hband.2, hce1.1, hpe1.1,
        hce2, hpe2, hce3, hpe3⟩

theorem evalSS_ok_mem {sym : String} {price lot lo hi marg : ℚ}
    {opts : List OptionEntry} {rs : List SSRec} {r : SSRec}
    (h : evalShortStraddle sym price lot opts lo hi marg = .ok rs)
    (hr : r ∈ rs) :
    price ≠ 0 ∧ ∃ kcp ∈ ssPairs lo hi price opts,
      ssRecord sym price lot marg kcp = .ok r := by
  unfold evalShortStraddle at h
  split_ifs at h with hp
  · cases h; simp at hr
  · exact ⟨hp, exMapM_ok_mem h hr⟩

theorem ssRecord_ok_spec {sym : String} {price lot marg : ℚ}
    {kcp : ℚ × OptionEntry × OptionEntry} {r : SSRec}
    (h : ssRecord sym price lot marg kcp = .ok r) :
    marg * 2 * lot * price ≠ 0 ∧
    r = { symbol := sym, current := price, strike := kcp.1
          expiry := formatExpiry kcp.2.1.expiry_date
          callP := kcp.2.1.last_price, putP := kcp.2.2.last_price
          combined := round2 (kcp.2.1.last_price + kcp.2.2.last_price)
          investment := intTrunc (marg * 2 * lot * price)
          maxProfit := intTrunc ((kcp.2.1.last_price + kcp.2.2.last_price) * lot)
          maxRoi := round2 ((kcp.2.1.last_price + kcp.2.2.last_price) * lot /
            (marg * 2 * lot * price) * 100)
          shortSafety := round2 (kcp.1 - (kcp.2.1.last_price + kcp.2.2.last_price))
          longSafety := round2 (kcp.1 + (kcp.2.1.last_price + kcp.2.2.last_price))
          callVol := kcp.2.1.volume, putVol := kcp.2.2.volume } := by
  unfold ssRecord at h
  split_ifs at h with h0
  exact ⟨h0, (Except.ok.inj h).symm⟩

theorem evalCC_ok_mem {sym : String} {price lot hi marg : ℚ}
    {opts : List OptionEntry} {rs : List CCRec} {r : CCRec}
    (h : evalCoveredCall sym price lot opts hi marg = .ok rs)
    (hr : r ∈ rs) :
    price ≠ 0 ∧ ∃ o ∈ opts.filter (ccQualifies hi price),
      ccRecord sym price lot marg o = .ok r := by
  unfold evalCoveredCall at h
  split_ifs at h with hp
  · cases h; simp at hr
  · exact ⟨hp, exMapM_ok_mem h hr⟩

theorem ccRecord_ok_spec {sym : String} {price lot marg : ℚ}
    {o : OptionEntry} {r : CCRec}
    (h : ccRecord sym price lot marg o = .ok r) :
    intTrunc (marg * lot * price) ≠ 0 ∧
    r = { symbol := sym, current := price, strike := o.strike
          expiry := formatExpiry o.expiry_date
          callP := o.last_price
          investment := intTrunc (marg * lot * price)
          maxProfit := intTrunc ((o.strike - price + o.last_price) * lot -
            round2 ((1/100) * (marg * lot * price)))
          maxRoi := round2 (100 * ((o.strike - price + o.last_price) * lot -
            round2 ((1/100) * (marg * lot * price))) /
            ((intTrunc (marg * lot * price) : ℤ) : ℚ))
          safetyPoint := round2 ((1003/1000) * price - o.last_price)
          safetyPct := round2 ((o.last_price - (3/1000) * price) / price * 100)
          callVol := o.volume } := by
  unfold ccRecord at h
  split_ifs at h with h0
  exact ⟨h0, (Except.ok.inj h).symm⟩

theorem ccQualifies_spec {hi price : ℚ} {o : OptionEntry}
    (h : ccQualifies hi price o = true) :
    o.option_type = some "CE" ∧ (999/1000 : ℚ) * price ≤ o.strike ∧
    o.strike ≤ hi * price ∧ o.last_price ≠ 0 := by
  unfold ccQualifies at h
  simp only [Bool.and_eq_true, decide_eq_true_eq, Bool.not_eq_eq_eq_not,
    Bool.not_true, decide_eq_false_iff_not] at h
  exact ⟨h.1.1.1, h.1.1.2, h.1.2, h.2⟩

/-! ## Concrete fixtures -/

/-- A CALL entry at the given strike/premium, December expiry. -/
def ceEntry (sym : String) (strike premium vol : ℚ) : OptionEntry :=
  { symbol := sym, expiry_date := "30-Dec-2025", expiry_month := "Dec"
    option_type := some "CE", strike := strike, last_price := premium
    volume := vol, open_interest := 0, underlying_value := 0 }

/-- A PUT entry at the given strike/premium, December expiry. -/
def peEntry (sym : String) (strike premium vol : ℚ) : OptionEntry :=
  { symbol := sym, expiry_date := "30-Dec-2025", expiry_month := "Dec"
    option_type := some "PE", strike := strike, last_price := premium
    volume := vol, open_interest := 0, underlying_value := 0 }

/-- The spec's worked straddle example: PNB, strike 120, call 3.50, put
3.20. -/
def pnbChain : List OptionEntry :=
  [ceEntry "PNB" 120 (7/2) 1000, peEntry "PNB" 120 (16/5) 2000]

/-- The straddle row produced for the spec's worked example. -/
def pnbRec : SSRec :=
  { symbol := "PNB", current := 120, strike := 120, expiry := "30-Dec"
    callP := 7/2, putP := 16/5, combined := 67/10, investment := 480000
    maxProfit := 53600, maxRoi := 1117/100, shortSafety := 1133/10
    longSafety := 1267/10, callVol := 1000, putVol := 2000 }

/-- The covered-call row produced for the spec's worked example
(current price 120, strike 125, premium 3.00, lot 8000, margin 0.25). -/
def pnbCCRec : CCRec :=
  { symbol := "PNB", current := 120, strike := 125, expiry := "30-Dec"
    callP := 3, investment := 240000, maxProfit := 61600, maxRoi := 2567/100
    safetyPoint := 2934/25, safetyPct := 11/5, callVol := 500 }

/-- Covered-call run at the fractional current price 120.001, used to
exhibit the interest-rounding behavior. -/
def ccFracRec : CCRec :=
  { symbol := "S", current := 120001/1000, strike := 125, expiry := "30-Dec"
    callP := 3, investment := 30000, maxProfit := 7699, maxRoi := 1283/50
    safetyPoint := 2934/25, safetyPct := 11/5, callVol := 500 }

/-! ## Claims -/

/-- C1 (amended): for every emitted short-straddle record, the fields satisfy
the metric formulas with the code's output formatting applied: the combined
premium and both safety bounds are rounded to 2 decimals, the investment and
max profit are truncated toward zero by `int()`, and the ROI is computed from
the un-truncated values and rounded to 2 decimals; the spec's worked PNB
example (current 120, lot 8000, margin 0.25, strike 120, call 3.50, put 3.20)
yields combined 6.70, investment 480000, max profit 53600, max ROI 11.17,
short safety 113.30, long safety 126.70. -/
theorem claim1_straddle_metrics :
    (∀ (sym : String) (price lot lo hi marg : ℚ) (opts : List OptionEntry)
        (rs : List SSRec) (r : SSRec),
        evalShortStraddle sym price lot opts lo hi marg = .ok rs → r ∈ rs →
        r.combined = round2 (r.callP + r.putP) ∧
        r.investment = intTrunc (marg * 2 * lot * price) ∧
        r.maxProfit = intTrunc ((r.callP + r.putP) * lot) ∧
        r.maxRoi = round2 ((r.callP + r.putP) * lot /
          (marg * 2 * lot * price) * 100) ∧
        r.shortSafety = round2 (r.strike - (r.callP + r.putP)) ∧
        r.longSafety = round2 (r.strike + (r.callP + r.putP))) ∧
    evalShortStraddle "PNB" 120 8000 pnbChain (49/50) (21/20) (1/4) =
      .ok [pnbRec] := by
  constructor
  · intro sym price lot lo hi marg opts rs r hok hr
    obtain ⟨hp, kcp, hkcp, hrec⟩ := evalSS_ok_mem hok hr
    obtain ⟨h0, rfl⟩ := ssRecord_ok_spec hrec
    exact ⟨rfl, rfl, rfl, rfl, rfl, rfl⟩
  · decide

/-- Witness for C1: the general field equations, instantiated at the spec's
worked PNB example. -/
theorem claim1_straddle_metrics_witness :
    pnbRec.combined = round2 (pnbRec.callP + pnbRec.putP) ∧
    pnbRec.investment = intTrunc ((1/4 : ℚ) * 2 * 8000 * 120) ∧
    pnbRec.maxProfit = intTrunc ((pnbRec.callP + pnbRec.putP) * 8000) ∧
    pnbRec.maxRoi = round2 ((pnbRec.callP + pnbRec.putP) * 8000 /
      ((1/4 : ℚ) * 2 * 8000 * 120) * 100) ∧
    pnbRec.shortSafety = round2 (pnbRec.strike - (pnbRec.callP + pnbRec.putP)) ∧
    pnbRec.longSafety = round2 (pnbRec.strike + (pnbRec.callP + pnbRec.putP)) :=
  claim1_straddle_metrics.1 "PNB" 120 8000 (49/50) (21/20) (1/4) pnbChain
    [pnbRec] pnbRec (by decide) (by simp)

/-- Counterexample for C1 as frozen: at current price 120.001 (lot 1000,
margin 0.25) the emitted investment field is `int(60000.5) = 60000`, not the
claimed `margin * 2 * lot_size * current_price = 60000.5`: the claim omits
the `int()` truncation applied to the emitted investment. -/
theorem claim1_straddle_metrics_cex :
    evalShortStraddle "S" (120001/1000) 1000
      [ceEntry "S" 120 (7/2) 1, peEntry "S" 120 (16/5) 2]
      (49/50) (21/20) (1/4) =
      .ok [{ symbol := "S", current := 120001/1000, strike := 120
             expiry := "30-Dec", callP := 7/2, putP := 16/5, combined := 67/10
             investment := 60000, maxProfit := 6700, maxRoi := 1117/100
             shortSafety := 1133/10, longSafety := 1267/10
             callVol := 1, putVol := 2 }] ∧
    ((60000 : ℤ) : ℚ) ≠ (1/4 : ℚ) * 2 * 1000 * (120001/1000) := by
  constructor
  · decide
  · decide

/-- C2 (amended): for every emitted covered-call record the fields satisfy
investment = int(margin * lot_size * current_price), max_profit =
int((strike - current_price + call_premium) * lot_size - interest) where
interest = round(0.01 * margin * lot_size * current_price, 2) (the code
rounds the interest to 2 decimals before subtracting it), safety_point =
round(1.003 * current_price - call_premium, 2) and safety_pct =
round((call_premium - 0.003 * current_price) / current_price * 100, 2);
for the spec's worked example (current 120, strike 125, lot 8000, margin
0.25, premium 3.00) the code yields interest 2400.00 (1% of 240000, not the
spec's 240), investment 240000, max profit 61600, max ROI 25.67, safety
point 117.36, safety percent 2.20. -/
theorem claim2_coveredcall_metrics :
    (∀ (sym : String) (price lot hi marg : ℚ) (opts : List OptionEntry)
        (rs : List CCRec) (r : CCRec),
        evalCoveredCall sym price lot opts hi marg = .ok rs → r ∈ rs →
        r.investment = intTrunc (marg * lot * price) ∧
        r.maxProfit = intTrunc ((r.strike - price + r.callP) * lot -
          round2 ((1/100) * (marg * lot * price))) ∧
        r.safetyPoint = round2 ((1003/1000) * price - r.callP) ∧
        r.safetyPct = round2 ((r.callP - (3/1000) * price) / price * 100)) ∧
    evalCoveredCall "PNB" 120 8000 [ceEntry "PNB" 125 3 500] (21/20) (1/4) =
      .ok [pnbCCRec] := by
  constructor
  · intro sym price lot hi marg opts rs r hok hr
    obtain ⟨hp, o, ho, hrec⟩ := evalCC_ok_mem hok hr
    obtain ⟨h0, rfl⟩ := ccRecord_ok_spec hrec
    exact ⟨rfl, rfl, rfl, rfl⟩
  · decide

/-- Witness for C2: the general field equations, instantiated at the spec's
worked covered-call example. -/
theorem claim2_coveredcall_metrics_witness :
    pnbCCRec.investment = intTrunc ((1/4 : ℚ) * 8000 * 120) ∧
    pnbCCRec.maxProfit = intTrunc ((pnbCCRec.strike - 120 + pnbCCRec.callP) * 8000 -
      round2 ((1/100) * ((1/4 : ℚ) * 8000 * 120))) ∧
    pnbCCRec.safetyPoint = round2 ((1003/1000 : ℚ) * 120 - pnbCCRec.callP) ∧
    pnbCCRec.safetyPct = round2 ((pnbCCRec.callP - (3/1000 : ℚ) * 120) / 120 * 100) :=
  claim2_coveredcall_metrics.1 "PNB" 120 8000 (21/20) (1/4)
    [ceEntry "PNB" 125 3 500] [pnbCCRec] pnbCCRec (by decide) (by simp)

/-- Counterexample for C2 as frozen: (a) on the claim's own worked example
the code emits max profit 61600 and max ROI 25.67, not 63760 and 26.57 — the
spec mis-multiplies the interest (1% of 240000 is 2400, not 240); (b) at the
fractional current price 120.001 the emitted max profit uses the interest
rounded to 2 decimals (giving 7699), not the claim's un-rounded interest
formula (which would give int(7698.9975) = 7698). -/
theorem claim2_coveredcall_metrics_cex :
    (evalCoveredCall "PNB" 120 8000 [ceEntry "PNB" 125 3 500] (21/20) (1/4) =
      .ok [pnbCCRec] ∧
     pnbCCRec.maxProfit ≠ 63760 ∧ pnbCCRec.maxRoi ≠ 2657/100) ∧
    (evalCoveredCall "S" (120001/1000) 1000 [ceEntry "S" 125 3 500]
        (21/20) (1/4) = .ok [ccFracRec] ∧
     ccFracRec.maxProfit ≠ intTrunc ((ccFracRec.strike - 120001/1000 +
       ccFracRec.callP) * 1000 - (1/100) * ((1/4 : ℚ) * 1000 * (120001/1000)))) := by
  refine ⟨⟨by decide, by decide, by decide⟩, by decide, by decide⟩

/-- Short-straddle row emitted when the PUT leg has the negative last price
-1 (nothing in the code rejects it: only exactly-zero premiums are
skipped). -/
def ssNegRec : SSRec :=
  { symbol := "S", current := 120, strike := 120, expiry := "30-Dec"
    callP := 7/2, putP := -1, combined := 5/2, investment := 480000
    maxProfit := 20000, maxRoi := 417/100, shortSafety := 235/2
    longSafety := 245/2, callVol := 1, putVol := 2 }

/-- C3 (amended): a record is emitted only when every premium used in its
formula is nonzero (not necessarily strictly positive: the code only filters
premiums that are exactly 0) and the strike lies in the applicable ATM band
(straddle: atm_lower*price ≤ strike ≤ atm_upper*price; covered call:
0.999*price ≤ strike ≤ atm_upper*price). -/
theorem claim3_band_and_premium :
    (∀ (sym : String) (price lot lo hi marg : ℚ) (opts : List OptionEntry)
        (rs : List SSRec) (r : SSRec),
        evalShortStraddle sym price lot opts lo hi marg = .ok rs → r ∈ rs →
        r.callP ≠ 0 ∧ r.putP ≠ 0 ∧
        lo * price ≤ r.strike ∧ r.strike ≤ hi * price) ∧
    (∀ (sym : String) (price lot hi marg : ℚ) (opts : List OptionEntry)
        (rs : List CCRec) (r : CCRec),
        evalCoveredCall sym price lot opts hi marg = .ok rs → r ∈ rs →
        r.callP ≠ 0 ∧
        (999/1000 : ℚ) * price ≤ r.strike ∧ r.strike ≤ hi * price) := by
  constructor
  · intro sym price lot lo hi marg opts rs r hok hr
    obtain ⟨hp, kcp, hkcp, hrec⟩ := evalSS_ok_mem hok hr
    obtain ⟨k, ce, pe⟩ := kcp
    obtain ⟨h0, rfl⟩ := ssRecord_ok_spec hrec
    obtain ⟨hc, hpe, hlo, hhi, _, _, _, _, _, _⟩ := ssPairs_mem_spec hkcp
    exact ⟨hc, hpe, hlo, hhi⟩
  · intro sym price lot hi marg opts rs r hok hr
    obtain ⟨hp, o, ho, hrec⟩ := evalCC_ok_mem hok hr
    obtain ⟨h0, rfl⟩ := ccRecord_ok_spec hrec
    rw [List.mem_filter] at ho
    obtain ⟨_, hlo, hhi, hnz⟩ := ccQualifies_spec ho.2
    exact ⟨hnz, hlo, hhi⟩

/-- Witness for C3: the straddle invariant instantiated at the worked PNB
example row. -/
theorem claim3_band_and_premium_witness :
    pnbRec.callP ≠ 0 ∧ pnbRec.putP ≠ 0 ∧
    (49/50 : ℚ) * 120 ≤ pnbRec.strike ∧ pnbRec.strike ≤ (21/20 : ℚ) * 120 :=
  claim3_band_and_premium.1 "PNB" 120 8000 (49/50) (21/20) (1/4) pnbChain
    [pnbRec] pnbRec (by decide) (by simp)

/-- Counterexample for C3 as frozen: with a PUT quoted at the negative last
price -1 the straddle still emits a record (the code only skips premiums that
are exactly zero), so "every premium strictly positive" is false. -/
theorem claim3_band_and_premium_cex :
    evalShortStraddle "S" 120 8000
      [ceEntry "S" 120 (7/2) 1, peEntry "S" 120 (-1) 2]
      (49/50) (21/20) (1/4) = .ok [ssNegRec] ∧
    ssNegRec.putP < 0 := by
  constructor
  · decide
  · decide

/-- C4 (amended): a zero current price makes both evaluators skip the symbol
silently, emitting no records and raising no error; a zero lot size is not
validated at all — as soon as a qualifying strike/entry exists, the ROI
division raises a ZeroDivisionError that escapes the evaluator (it is caught
only by the generic per-symbol handler), not a labeled invalid-input
error. -/
theorem claim4_zero_inputs :
    (∀ (sym : String) (lot lo hi marg : ℚ) (opts : List OptionEntry),
        evalShortStraddle sym 0 lot opts lo hi marg = .ok []) ∧
    (∀ (sym : String) (lot hi marg : ℚ) (opts : List OptionEntry),
        evalCoveredCall sym 0 lot opts hi marg = .ok []) ∧
    (∀ (sym : String) (price lo hi marg : ℚ) (opts : List OptionEntry),
        price ≠ 0 → ssPairs lo hi price opts ≠ [] →
        evalShortStraddle sym price 0 opts lo hi marg =
          .error "ZeroDivisionError") ∧
    (∀ (sym : String) (price hi marg : ℚ) (opts : List OptionEntry),
        price ≠ 0 → opts.filter (ccQualifies hi price) ≠ [] →
        evalCoveredCall sym price 0 opts hi marg =
          .error "ZeroDivisionError") := by
  refine ⟨?_, ?_, ?_, ?_⟩
  · intro sym lot lo hi marg opts
    simp [evalShortStraddle]
  · intro sym lot hi marg opts
    simp [evalCoveredCall]
  · intro sym price lo hi marg opts hp hne
    unfold evalShortStraddle
    rw [if_neg hp]
    obtain ⟨x, t, hxt⟩ := List.exists_cons_of_ne_nil hne
    rw [hxt]
    have hz : marg * 2 * (0 : ℚ) * price = 0 := by ring
    have hfx : ssRecord sym price 0 marg x = .error "ZeroDivisionError" := by
      unfold ssRecord
      rw [if_pos hz]
    simp [exMapM, hfx]
  · intro sym price hi marg opts hp hne
    unfold evalCoveredCall
    rw [if_neg hp]
    obtain ⟨x, t, hxt⟩ := List.exists_cons_of_ne_nil hne
    rw [hxt]
    have hz : intTrunc (marg * (0 : ℚ) * price) = 0 := by
      have h0 : marg * (0 : ℚ) * price = 0 := by ring
      rw [h0]
      unfold intTrunc
      norm_num
    have hfx : ccRecord sym price 0 marg x = .error "ZeroDivisionError" := by
      unfold ccRecord
      rw [if_pos hz]
    simp [exMapM, hfx]

/-- Witness for C4: the zero-lot-size branch instantiated at the worked PNB
example, where a qualifying strike exists. -/
theorem claim4_zero_inputs_witness :
    (120 : ℚ) ≠ 0 ∧ ssPairs (49/50) (21/20) 120 pnbChain ≠ [] ∧
    evalShortStraddle "PNB" 120 0 pnbChain (49/50) (21/20) (1/4) =
      .error "ZeroDivisionError" :=
  ⟨by norm_num, by decide,
    claim4_zero_inputs.2.2.1 "PNB" 120 (49/50) (21/20) (1/4) pnbChain
      (by norm_num) (by decide)⟩

/-- Counterexample for C4 as frozen: a zero current price yields a silent
skip (ok with no records), not a labeled invalid-input error, and a zero lot
size propagates a ZeroDivisionError out of either evaluator. -/
theorem claim4_zero_inputs_cex :
    evalShortStraddle "S" 0 8000 pnbChain (49/50) (21/20) (1/4) = .ok [] ∧
    evalShortStraddle "PNB" 120 0 pnbChain (49/50) (21/20) (1/4) =
      .error "ZeroDivisionError" ∧
    evalCoveredCall "PNB" 120 0 [ceEntry "PNB" 125 3 500] (21/20) (1/4) =
      .error "ZeroDivisionError" := by
  refine ⟨by decide, by decide, by decide⟩

/-- A raw OPTSTK record whose strike field is pure whitespace. -/
def wsStrikeItem : RawItem :=
  { instrumentType := "OPTSTK", optionType := some "CE"
    expiryDate := "30-Dec-2025", strikePrice := some "   "
    lastPrice := 1, totalTradedVolume := 2, openInterest := 3
    underlyingValue := 4 }

/-- A raw OPTSTK record whose strike field is non-empty but not numeric. -/
def abcStrikeItem : RawItem :=
  { instrumentType := "OPTSTK", optionType := some "CE"
    expiryDate := "30-Dec-2025", strikePrice := some " abc "
    lastPrice := 1, totalTradedVolume := 2, openInterest := 3
    underlyingValue := 4 }

/-- C5 (amended): the strike field is trimmed of surrounding whitespace
before numeric parsing and a strike that is empty (or missing) after
trimming yields an entry with strike 0 without error; but a non-empty
unparsable strike raises a ValueError that aborts the whole batch — it does
not degrade to 0. -/
theorem claim5_strike_parsing :
    (∀ (sym : String) (it : RawItem),
        stripString (it.strikePrice.getD "0") = "" →
        ∃ e, mkEntry sym it = .ok e ∧ e.strike = 0) ∧
    (∀ (sym : String) (m? : Option String) (data : List RawItem)
        (it : RawItem),
        it ∈ data.filter (optstkQualifies m?) →
        stripString (it.strikePrice.getD "0") ≠ "" →
        parseFloat? (stripString (it.strikePrice.getD "0")) = none →
        ∃ msg, get_options_data sym m? data = .error msg) := by
  constructor
  · intro sym it hemp
    refine ⟨{ symbol := sym, expiry_date := it.expiryDate
              expiry_month := monthOf it.expiryDate
              option_type := it.optionType, strike := 0
              last_price := it.lastPrice, volume := it.totalTradedVolume
              open_interest := it.openInterest
              underlying_value := it.underlyingValue }, ?_, rfl⟩
    unfold mkEntry parseStrike
    rw [if_pos hemp]
  · intro sym m? data it hit hne hparse
    have herr : mkEntry sym it = .error "ValueError" := by
      unfold mkEntry parseStrike
      rw [if_neg hne, hparse]
    exact exMapM_error_of_mem hit herr

/-- Witness for C5: a whitespace-only strike yields an entry with strike 0,
and an unparsable strike aborts the batch, both at concrete records. -/
theorem claim5_strike_parsing_witness :
    (stripString (wsStrikeItem.strikePrice.getD "0") = "" ∧
     ∃ e, mkEntry "S" wsStrikeItem = .ok e ∧ e.strike = 0) ∧
    (abcStrikeItem ∈ [abcStrikeItem].filter (optstkQualifies none) ∧
     ∃ msg, get_options_data "S" none [abcStrikeItem] = .error msg) :=
  ⟨⟨by decide, claim5_strike_parsing.1 "S" wsStrikeItem (by decide)⟩,
   ⟨by decide,
    claim5_strike_parsing.2 "S" none [abcStrikeItem] abcStrikeItem
      (by decide) (by decide) (by decide)⟩⟩

/-- Counterexample for C5 as frozen: the record with strike field " abc "
makes the whole batch abort with a ValueError; no entry with strike 0 is
produced for it. -/
theorem claim5_strike_parsing_cex :
    get_options_data "S" none [abcStrikeItem] = .error "ValueError" := by
  decide

/-- The straddle row emitted at current price 0.004 and strike 0.004, whose
rounded safety bounds are not symmetric around the strike. -/
def tinyStrikeRec : SSRec :=
  { symbol := "S", current := 1/250, strike := 1/250, expiry := "30-Dec"
    callP := 1/1000, putP := 1/500, combined := 0, investment := 0
    maxProfit := 0, maxRoi := 150, shortSafety := 0, longSafety := 1/100
    callVol := 1, putVol := 2 }

/-- C6 (amended): for every emitted short-straddle record whose strike is an
exact multiple of 0.01 (i.e. 100 * strike is an integer — always the case
for real quoted strikes), the rounded safety bounds satisfy
short_safety + long_safety = 2 * strike. -/
theorem claim6_safety_symmetry :
    ∀ (sym : String) (price lot lo hi marg : ℚ) (opts : List OptionEntry)
      (rs : List SSRec) (r : SSRec) (n : ℤ),
      evalShortStraddle sym price lot opts lo hi marg = .ok rs → r ∈ rs →
      (n : ℚ) = 100 * r.strike →
      r.shortSafety + r.longSafety = 2 * r.strike := by
  intro sym price lot lo hi marg opts rs r n hok hr hn
  obtain ⟨hp, kcp, hkcp, hrec⟩ := evalSS_ok_mem hok hr
  obtain ⟨h0, rfl⟩ := ssRecord_ok_spec hrec
  exact round2_sub_add_symm (kcp.2.1.last_price + kcp.2.2.last_price) n hn

/-- Witness for C6: symmetry of the safety bounds at the worked PNB example
(strike 120, 100 * 120 = 12000). -/
theorem claim6_safety_symmetry_witness :
    pnbRec.shortSafety + pnbRec.longSafety = 2 * pnbRec.strike :=
  claim6_safety_symmetry "PNB" 120 8000 (49/50) (21/20) (1/4) pnbChain
    [pnbRec] pnbRec 12000 (by decide) (by simp) (by decide)

/-- Counterexample for C6 as frozen: at strike 0.004 (current price 0.004,
combined premium 0.003) the emitted bounds are round(0.001, 2) = 0.00 and
round(0.007, 2) = 0.01, whose sum 0.01 differs from 2 * strike = 0.008: the
claimed symmetry fails for strikes that are not multiples of 0.01. -/
theorem claim6_safety_symmetry_cex :
    evalShortStraddle "S" (1/250) 1
      [ceEntry "S" (1/250) (1/1000) 1, peEntry "S" (1/250) (1/500) 2]
      (49/50) (21/20) (1/4) = .ok [tinyStrikeRec] ∧
    tinyStrikeRec.shortSafety + tinyStrikeRec.longSafety ≠
      2 * tinyStrikeRec.strike := by
  constructor
  · decide
  · decide

/-- The covered-call row at price 40, strike 41, premium 0.1009, where the
raw profit 1000.9 truncates to 1000 but the ROI is computed from the raw
value. -/
def ccRoiRec : CCRec :=
  { symbol := "S", current := 40, strike := 41, expiry := "30-Dec"
    callP := 1009/10000, investment := 10000, maxProfit := 1000
    maxRoi := 1001/100, safetyPoint := 2001/50, safetyPct := -1/20
    callVol := 7 }

/-- C7 (amended): the emitted covered-call max_roi_pct is
round(100 * raw_profit / investment, 2) where investment is the integer-cast
value but raw_profit = (strike - current_price + call_premium) * lot_size -
interest is the profit before the int() truncation applied to the emitted
max_profit field. -/
theorem claim7_cc_roi :
    ∀ (sym : String) (price lot hi marg : ℚ) (opts : List OptionEntry)
      (rs : List CCRec) (r : CCRec),
      evalCoveredCall sym price lot opts hi marg = .ok rs → r ∈ rs →
      r.maxRoi = round2 (100 * ((r.strike - price + r.callP) * lot -
        round2 ((1/100) * (marg * lot * price))) / ((r.investment : ℤ) : ℚ)) := by
  intro sym price lot hi marg opts rs r hok hr
  obtain ⟨hp, o, ho, hrec⟩ := evalCC_ok_mem hok hr
  obtain ⟨h0, rfl⟩ := ccRecord_ok_spec hrec
  rfl

/-- Witness for C7: the ROI formula instantiated at the worked covered-call
example. -/
theorem claim7_cc_roi_witness :
    pnbCCRec.maxRoi = round2 (100 * ((pnbCCRec.strike - 120 + pnbCCRec.callP) *
      8000 - round2 ((1/100) * ((1/4 : ℚ) * 8000 * 120))) /
      ((pnbCCRec.investment : ℤ) : ℚ)) :=
  claim7_cc_roi "PNB" 120 8000 (21/20) (1/4) [ceEntry "PNB" 125 3 500]
    [pnbCCRec] pnbCCRec (by decide) (by simp)

/-- Counterexample for C7 as frozen: at price 40, strike 41, premium 0.1009,
lot 1000, margin 0.25 the emitted record has max_profit 1000, investment
10000, but max_roi 10.01 — computed from the raw profit 1000.9, not from the
integer-cast max_profit (which would give round(10.00, 2) = 10.00). -/
theorem claim7_cc_roi_cex :
    evalCoveredCall "S" 40 1000 [ceEntry "S" 41 (1009/10000) 7]
      (21/20) (1/4) = .ok [ccRoiRec] ∧
    ccRoiRec.maxRoi ≠
      round2 (100 * (ccRoiRec.maxProfit : ℚ) / (ccRoiRec.investment : ℚ)) := by
  constructor
  · decide
  · decide

/-- Two covered-call rows at the same current price 120 whose premiums 3.001
and 3.002 differ but whose rounded safety points are both 117.36. -/
def ccTieRecA : CCRec :=
  { symbol := "S", current := 120, strike := 120, expiry := "30-Dec"
    callP := 3001/1000, investment := 240000, maxProfit := 21608
    maxRoi := 9, safetyPoint := 2934/25, safetyPct := 11/5, callVol := 1 }

/-- Companion row to `ccTieRecA` with the slightly larger premium. -/
def ccTieRecB : CCRec :=
  { symbol := "S", current := 120, strike := 121, expiry := "30-Dec"
    callP := 1501/500, investment := 240000, maxProfit := 29616
    maxRoi := 617/50, safetyPoint := 2934/25, safetyPct := 11/5, callVol := 2 }

/-- C8 (amended): within one covered-call evaluation (current price fixed),
the emitted safety_point is antitone in call_premium in the weak sense: a
larger premium never yields a larger safety point (rounding to 2 decimals
can map distinct premiums to equal safety points, so strict decrease
fails). -/
theorem claim8_safety_point_antitone :
    ∀ (sym : String) (price lot hi marg : ℚ) (opts : List OptionEntry)
      (rs : List CCRec) (r1 r2 : CCRec),
      evalCoveredCall sym price lot opts hi marg = .ok rs →
      r1 ∈ rs → r2 ∈ rs → r1.callP ≤ r2.callP →
      r2.safetyPoint ≤ r1.safetyPoint := by
  intro sym price lot hi marg opts rs r1 r2 hok h1 h2 hc
  obtain ⟨hp, o1, ho1, hrec1⟩ := evalCC_ok_mem hok h1
  obtain ⟨hp2, o2, ho2, hrec2⟩ := evalCC_ok_mem hok h2
  obtain ⟨h01, rfl⟩ := ccRecord_ok_spec hrec1
  obtain ⟨h02, rfl⟩ := ccRecord_ok_spec hrec2
  apply round2_mono
  have hc' : o1.last_price ≤ o2.last_price := hc
  linarith

/-- Witness for C8: the weak antitonicity instantiated at the two concrete
rows with premiums 3.001 and 3.002. -/
theorem claim8_safety_point_antitone_witness :
    ccTieRecA.callP ≤ ccTieRecB.callP ∧
    ccTieRecB.safetyPoint ≤ ccTieRecA.safetyPoint :=
  ⟨by norm_num [ccTieRecA, ccTieRecB],
   claim8_safety_point_antitone "S" 120 8000 (21/20) (1/4)
     [ceEntry "S" 120 (3001/1000) 1, ceEntry "S" 121 (3002/1000) 2]
     [ccTieRecA, ccTieRecB] ccTieRecA ccTieRecB (by decide) (by simp)
     (by simp) (by norm_num [ccTieRecA, ccTieRecB])⟩

/-- Counterexample for C8 as frozen: premiums 3.001 < 3.002 at the same
current price 120 produce the same safety point 117.36 after rounding, so
the larger premium does not have a strictly smaller safety point. -/
theorem claim8_safety_point_antitone_cex :
    evalCoveredCall "S" 120 8000
      [ceEntry "S" 120 (3001/1000) 1, ceEntry "S" 121 (3002/1000) 2]
      (21/20) (1/4) = .ok [ccTieRecA, ccTieRecB] ∧
    ccTieRecA.callP < ccTieRecB.callP ∧
    ccTieRecB.safetyPoint = ccTieRecA.safetyPoint := by
  refine ⟨by decide, by decide, by decide⟩

/-- A raw OPTSTK record with an out-of-vocabulary option type and a negative
strike numeral, both of which the builder passes through unchanged. -/
def badTypeItem : RawItem :=
  { instrumentType := "OPTSTK", optionType := some "XX"
    expiryDate := "30-Dec-2025", strikePrice := some " -5"
    lastPrice := 1, totalTradedVolume := 2, openInterest := 3
    underlyingValue := 4 }

/-- The entry the builder produces from `badTypeItem`. -/
def badTypeEntry : OptionEntry :=
  { symbol := "S", expiry_date := "30-Dec-2025", expiry_month := "Dec"
    option_type := some "XX", strike := -5, last_price := 1, volume := 2
    open_interest := 3, underlying_value := 4 }

/-- A well-formed raw OPTSTK CALL record with a padded positive strike. -/
def goodItem : RawItem :=
  { instrumentType := "OPTSTK", optionType := some "CE"
    expiryDate := "30-Dec-2025", strikePrice := some "  120.00 "
    lastPrice := 1, totalTradedVolume := 2, openInterest := 3
    underlyingValue := 4 }

/-- C9 (amended): the builder enforces no invariant of its own — it copies
the feed's option-type tag verbatim and keeps the parsed strike sign — so
`strike ≥ 0 ∧ option type ∈ {Call, Put}` holds exactly when the feed
supplies only CE/PE tags and non-negative strike numerals. -/
theorem claim9_entry_invariant :
    ∀ (sym : String) (m? : Option String) (data : List RawItem),
      (∀ it ∈ data,
        (it.optionType = some "CE" ∨ it.optionType = some "PE") ∧
        (stripString (it.strikePrice.getD "0") = "" ∨
         ∃ q, parseFloat? (stripString (it.strikePrice.getD "0")) = some q ∧
           0 ≤ q)) →
      ∃ es, get_options_data sym m? data = .ok es ∧
        ∀ e ∈ es, (e.option_type = some "CE" ∨ e.option_type = some "PE") ∧
          0 ≤ e.strike := by
  intro sym m? data hdata
  unfold get_options_data
  apply exMapM_ok_of_forall
  intro it hit
  have hd := hdata it (List.mem_of_mem_filter hit)
  have hstrike : ∃ k, parseStrike it = .ok k ∧ 0 ≤ k := by
    by_cases hemp : stripString (it.strikePrice.getD "0") = ""
    · refine ⟨0, ?_, le_refl 0⟩
      unfold parseStrike
      rw [if_pos hemp]
    · rcases hd.2 with h | ⟨q, hq, hq0⟩
      · exact absurd h hemp
      · refine ⟨q, ?_, hq0⟩
        unfold parseStrike
        rw [if_neg hemp, hq]
  obtain ⟨k, hk, hk0⟩ := hstrike
  refine ⟨{ symbol := sym, expiry_date := it.expiryDate
            expiry_month := monthOf it.expiryDate
            option_type := it.optionType, strike := k
            last_price := it.lastPrice, volume := it.totalTradedVolume
            open_interest := it.openInterest
            underlying_value := it.underlyingValue }, ?_, hd.1, hk0⟩
  unfold mkEntry
  rw [hk]

/-- Witness for C9: the invariant holds on a batch consisting of one
well-formed CE record with strike "  120.00 ". -/
theorem claim9_entry_invariant_witness :
    ∃ es, get_options_data "S" (some "Dec") [goodItem] = .ok es ∧
      ∀ e ∈ es, (e.option_type = some "CE" ∨ e.option_type = some "PE") ∧
        0 ≤ e.strike :=
  claim9_entry_invariant "S" (some "Dec") [goodItem] (by
    intro it hit
    simp only [List.mem_singleton] at hit
    subst hit
    exact ⟨Or.inl rfl, Or.inr ⟨120, by decide, by norm_num⟩⟩)

/-- Counterexample for C9 as frozen: from a record with option type "XX" and
strike " -5" the builder emits an entry with option type "XX" (neither Call
nor Put) and strike -5 < 0. -/
theorem claim9_entry_invariant_cex :
    get_options_data "S" none [badTypeItem] = .ok [badTypeEntry] ∧
    badTypeEntry.strike < 0 ∧
    badTypeEntry.option_type ≠ some "CE" ∧
    badTypeEntry.option_type ≠ some "PE" := by
  refine ⟨by decide, by decide, by decide, by decide⟩

/-- Two identical CALL entries at the same strike and month. -/
def dupChain : List OptionEntry :=
  [ceEntry "D" 125 3 5, ceEntry "D" 125 3 5]

/-- The covered-call row each element of `dupChain` produces. -/
def dupCCRec : CCRec :=
  { symbol := "D", current := 120, strike := 125, expiry := "30-Dec"
    callP := 3, investment := 240000, maxProfit := 61600, maxRoi := 2567/100
    safetyPoint := 2934/25, safetyPct := 11/5, callVol := 5 }

/-- C10: the covered-call evaluator iterates raw option entries without
strike grouping — the output has exactly one record per qualifying CALL
entry, so duplicate entries at the same (strike, month) each produce their
own record. -/
theorem claim10_cc_no_grouping :
    ∀ (sym : String) (price lot hi marg : ℚ) (opts : List OptionEntry)
      (rs : List CCRec),
      price ≠ 0 →
      evalCoveredCall sym price lot opts hi marg = .ok rs →
      rs.length = (opts.filter (ccQualifies hi price)).length := by
  intro sym price lot hi marg opts rs hp hok
  unfold evalCoveredCall at hok
  rw [if_neg hp] at hok
  exact exMapM_ok_length hok

/-- Witness for C10: two identical qualifying CALL entries at strike 125
yield two records. -/
theorem claim10_cc_no_grouping_witness :
    evalCoveredCall "D" 120 8000 dupChain (21/20) (1/4) =
      .ok [dupCCRec, dupCCRec] ∧
    (dupChain.filter (ccQualifies (21/20) 120)).length = 2 ∧
    ([dupCCRec, dupCCRec] : List CCRec).length =
      (dupChain.filter (ccQualifies (21/20) 120)).length :=
  ⟨by decide, by decide,
   claim10_cc_no_grouping "D" 120 8000 (21/20) (1/4) dupChain
     [dupCCRec, dupCCRec] (by norm_num) (by decide)⟩

end Profitinator

